import Mathlib

/-!
Verification of the vscode-go extension's capability negotiation, version
gate, lint cancellation, on-save check batch, update prompts and formatter
flag handling, as a shallow embedding of the TypeScript sources
(`src/goLanguageServer.ts`, `src/goLint.ts`, `src/goCheck.ts`,
`goInstallTools.ts`, `goFormat.ts`).
-/

namespace VSCodeGo

/-- The fixed feature enumeration from `LanguageServerConfig.features`
in `src/goLanguageServer.ts`. -/
inductive Feature
  | completion
  | diagnostics
  | format
  | definition
  | typeDefinition
  | hover
  | references
  | rename
  | signatureHelp
  | documentSymbols
  | workspaceSymbols
  | implementation
  | documentLink
  deriving DecidableEq, Repr

/-- The per-feature boolean toggles of `LanguageServerConfig.features`
(`src/goLanguageServer.ts`, interface `LanguageServerConfig`). -/
structure Features where
  completion : Bool
  diagnostics : Bool
  format : Bool
  definition : Bool
  typeDefinition : Bool
  hover : Bool
  references : Bool
  rename : Bool
  signatureHelp : Bool
  documentSymbols : Bool
  workspaceSymbols : Bool
  implementation : Bool
  documentLink : Bool
  deriving DecidableEq, Repr

/-- `LanguageServerConfig` from `src/goLanguageServer.ts`. -/
structure LanguageServerConfig where
  enabled : Bool
  flags : List String
  features : Features
  deriving DecidableEq, Repr

/-- The capability fields of `c.initializeResult.capabilities` that the
`onReady` handler in `registerLanguageFeatures` reads (each field models
JavaScript truthiness of the corresponding provider entry). -/
structure ServerCapabilities where
  completionProvider : Bool
  documentFormattingProvider : Bool
  renameProvider : Bool
  typeDefinitionProvider : Bool
  hoverProvider : Bool
  definitionProvider : Bool
  referencesProvider : Bool
  documentSymbolProvider : Bool
  signatureHelpProvider : Bool
  workspaceSymbolProvider : Bool
  implementationProvider : Bool
  documentLinkProvider : Bool
  deriving DecidableEq, Repr

/-- A registration segment of the `onReady` handler: each
`if (...) { ctx.subscriptions.push(vscode.languages.register...) }`
block contributes one provider registration when its guard holds. -/
def regSeg (b : Bool) (f : Feature) : List Feature :=
  if b then [f] else []

/-- The `c.onReady().then(...)` handler of `registerLanguageFeatures`
(`src/goLanguageServer.ts` lines 187-240): given the parsed config and the
(possibly absent) advertised capabilities, returns the list of fallback
provider registrations performed, in source order, together with whether
the user-facing error message was shown.  When `capabilities` is falsy the
handler shows the error and returns before registering anything. -/
def onReadyRegistrations (config : LanguageServerConfig)
    (capabilities : Option ServerCapabilities) : List Feature × Bool :=
  match capabilities with
  | none => ([], true)
  | some caps =>
      (regSeg (!config.features.completion || !caps.completionProvider) .completion ++
       regSeg (!config.features.format || !caps.documentFormattingProvider) .format ++
       regSeg (!config.features.rename || !caps.renameProvider) .rename ++
       regSeg (!config.features.typeDefinition || !caps.typeDefinitionProvider) .typeDefinition ++
       regSeg (!config.features.hover || !caps.hoverProvider) .hover ++
       regSeg (!config.features.definition || !caps.definitionProvider) .definition ++
       regSeg (!config.features.references || !caps.referencesProvider) .references ++
       regSeg (!config.features.documentSymbols || !caps.documentSymbolProvider) .documentSymbols ++
       regSeg (!config.features.signatureHelp || !caps.signatureHelpProvider) .signatureHelp ++
       regSeg (!config.features.workspaceSymbols || !caps.workspaceSymbolProvider) .workspaceSymbols ++
       regSeg (!config.features.implementation || !caps.implementationProvider) .implementation,
       false)

/-- The configuration toggle that governs a feature, as read by the
middleware and the `onReady` handler. -/
def featureEnabled (config : LanguageServerConfig) : Feature → Bool
  | .completion => config.features.completion
  | .diagnostics => config.features.diagnostics
  | .format => config.features.format
  | .definition => config.features.definition
  | .typeDefinition => config.features.typeDefinition
  | .hover => config.features.hover
  | .references => config.features.references
  | .rename => config.features.rename
  | .signatureHelp => config.features.signatureHelp
  | .documentSymbols => config.features.documentSymbols
  | .workspaceSymbols => config.features.workspaceSymbols
  | .implementation => config.features.implementation
  | .documentLink => config.features.documentLink

/-- The advertised capability corresponding to a feature.  The `onReady`
handler consults a capability field for eleven features; it reads no
capability field for `diagnostics` (the protocol pushes diagnostics, there
is no provider capability) and never reads `documentLinkProvider`. -/
def capSupports (caps : ServerCapabilities) : Feature → Bool
  | .completion => caps.completionProvider
  | .diagnostics => false
  | .format => caps.documentFormattingProvider
  | .definition => caps.definitionProvider
  | .typeDefinition => caps.typeDefinitionProvider
  | .hover => caps.hoverProvider
  | .references => caps.referencesProvider
  | .rename => caps.renameProvider
  | .signatureHelp => caps.signatureHelpProvider
  | .documentSymbols => caps.documentSymbolProvider
  | .workspaceSymbols => caps.workspaceSymbolProvider
  | .implementation => caps.implementationProvider
  | .documentLink => caps.documentLinkProvider

/-- Whether the `onReady` handler contains a fallback registration block
for the feature: it does for eleven features, and contains none for
`diagnostics` and `documentLink`. -/
def hasFallback : Feature → Bool
  | .diagnostics => false
  | .documentLink => false
  | _ => true

/-- The empty/null no-op convention the middleware uses when a feature's
toggle is off. -/
inductive NoOpReply
  | emptyList
  | nullValue
  deriving DecidableEq, Repr

/-- What a middleware entry does with a request. -/
inductive MiddlewareAction
  | shortCircuit (reply : NoOpReply)
  | forward
  deriving DecidableEq, Repr

/-- The middleware table of the `LanguageClient` constructed in
`registerLanguageFeatures` (`src/goLanguageServer.ts` lines 104-183):
each entry checks the feature's configuration toggle and either
short-circuits with `[]` / `null` or forwards to `next`. -/
def middleware (config : LanguageServerConfig) : Feature → MiddlewareAction
  | .format => if config.features.format then .forward else .shortCircuit .emptyList
  | .completion => if config.features.completion then .forward else .shortCircuit .emptyList
  | .rename => if config.features.rename then .forward else .shortCircuit .nullValue
  | .definition => if config.features.definition then .forward else .shortCircuit .nullValue
  | .typeDefinition => if config.features.typeDefinition then .forward else .shortCircuit .nullValue
  | .hover => if config.features.hover then .forward else .shortCircuit .nullValue
  | .references => if config.features.references then .forward else .shortCircuit .emptyList
  | .signatureHelp => if config.features.signatureHelp then .forward else .shortCircuit .nullValue
  | .documentSymbols => if config.features.documentSymbols then .forward else .shortCircuit .emptyList
  | .workspaceSymbols => if config.features.workspaceSymbols then .forward else .shortCircuit .emptyList
  | .implementation => if config.features.implementation then .forward else .shortCircuit .nullValue
  | .diagnostics => if config.features.diagnostics then .forward else .shortCircuit .nullValue
  | .documentLink => if config.features.documentLink then .forward else .shortCircuit .nullValue

/-- The no-op reply each middleware entry returns when the toggle is off,
read off the middleware table of the source. -/
def noOpOf : Feature → NoOpReply
  | .format => .emptyList
  | .completion => .emptyList
  | .references => .emptyList
  | .documentSymbols => .emptyList
  | .workspaceSymbols => .emptyList
  | _ => .nullValue

/-- A feature-toggle record with every toggle on. -/
def allOnFeatures : Features :=
  ⟨true, true, true, true, true, true, true, true, true, true, true, true, true⟩

/-- A feature-toggle record with every toggle off. -/
def allOffFeatures : Features :=
  ⟨false, false, false, false, false, false, false, false, false, false, false, false, false⟩

/-- A server-enabled configuration with all feature toggles on. -/
def allOnConfig : LanguageServerConfig := ⟨true, [], allOnFeatures⟩

/-- A server-enabled configuration with all feature toggles off. -/
def allOffConfig : LanguageServerConfig := ⟨true, [], allOffFeatures⟩

/-- A capability set asserting every capability the handler reads. -/
def allTrueCaps : ServerCapabilities :=
  ⟨true, true, true, true, true, true, true, true, true, true, true, true⟩

/-- A present-but-empty capability set (every provider field falsy). -/
def emptyCaps : ServerCapabilities :=
  ⟨false, false, false, false, false, false, false, false, false, false, false, false⟩

theorem count_regSeg (b : Bool) (g f : Feature) :
    (regSeg b g).count f = if b = true ∧ g = f then 1 else 0 := by
  cases b <;> by_cases h : g = f <;> simp [regSeg, List.count_cons, h]

/-- C1: the claim fails on the code.  With every toggle enabled and a
present-but-empty capability set, `documentLink` is enabled and absent
from the capabilities, yet the post-onReady pass registers zero fallback
provider handles for it (the handler has no `documentLink` fallback
block), not exactly one as the claim requires. -/
theorem C1_counterexample :
    featureEnabled allOnConfig Feature.documentLink = true ∧
    capSupports emptyCaps Feature.documentLink = false ∧
    ¬ ((onReadyRegistrations allOnConfig (some emptyCaps)).1.count Feature.documentLink = 1) := by
  decide

/-- C1 (amended): for every feature whose toggle is enabled, the
post-onReady pass registers exactly one fallback handle when the feature
has a fallback block (the eleven features other than `diagnostics` and
`documentLink`) and its capability is absent, and zero handles otherwise —
in particular zero when the capability is advertised, and always zero for
`diagnostics` and `documentLink`, which have no fallback blocks. -/
theorem C1_amended_theorem (config : LanguageServerConfig) (caps : ServerCapabilities)
    (f : Feature) (henabled : featureEnabled config f = true) :
    (onReadyRegistrations config (some caps)).1.count f
      = if hasFallback f = true ∧ capSupports caps f = false then 1 else 0 := by
  cases f <;>
    simp_all [onReadyRegistrations, List.count_append, count_regSeg, featureEnabled,
      capSupports, hasFallback]

/-- C1 (witness): the amended theorem instantiated at the all-enabled
configuration, an empty capability set and the `completion` feature. -/
theorem C1_amended_witness :
    featureEnabled allOnConfig Feature.completion = true ∧
    (onReadyRegistrations allOnConfig (some emptyCaps)).1.count Feature.completion
      = if hasFallback Feature.completion = true ∧ capSupports emptyCaps Feature.completion = false
        then 1 else 0 :=
  ⟨by decide, C1_amended_theorem allOnConfig emptyCaps Feature.completion (by decide)⟩

/-- C2: the claim fails on the code.  With the `completion` toggle off
(and the server advertising completion support), the post-onReady pass
still registers a fallback completion provider, because its guard
`!config.features.completion || !capabilities.completionProvider` is
satisfied by the disabled toggle alone; the claim requires that no
provider be registered for a disabled feature. -/
theorem C2_counterexample :
    featureEnabled allOffConfig Feature.completion = false ∧
    ¬ ((onReadyRegistrations allOffConfig (some allTrueCaps)).1.count Feature.completion = 0) := by
  decide

/-- C2 (amended): for every feature whose toggle is off, the middleware
short-circuits server requests with the feature's empty/null convention
(never forwarding to the server), and the post-onReady pass registers
exactly one fallback provider handle for the feature when it has a
fallback block (and none for `diagnostics` and `documentLink`), so the
fallback — not the server — is the answering path for disabled features. -/
theorem C2_amended_theorem (config : LanguageServerConfig) (caps : ServerCapabilities)
    (f : Feature) (hdisabled : featureEnabled config f = false) :
    middleware config f = .shortCircuit (noOpOf f) ∧
    (onReadyRegistrations config (some caps)).1.count f
      = if hasFallback f = true then 1 else 0 := by
  cases f <;>
    simp_all [onReadyRegistrations, List.count_append, count_regSeg, featureEnabled,
      middleware, noOpOf, hasFallback]

/-- C2 (witness): the amended theorem instantiated at the all-disabled
configuration, a full capability set and the `completion` feature. -/
theorem C2_amended_witness :
    featureEnabled allOffConfig Feature.completion = false ∧
    (middleware allOffConfig Feature.completion
        = .shortCircuit (noOpOf Feature.completion) ∧
      (onReadyRegistrations allOffConfig (some allTrueCaps)).1.count Feature.completion
        = if hasFallback Feature.completion = true then 1 else 0) :=
  ⟨by decide, C2_amended_theorem allOffConfig allTrueCaps Feature.completion (by decide)⟩

/-- C3: the claim fails on the code.  When the advertised capability set
is absent, the onReady handler shows the error message and returns before
the fallback-registration pass, so no feature is left answered by a
fallback provider registered by that handler — the registration list is
empty, refuting "every feature is left answered by its fallback
provider". -/
theorem C3_counterexample :
    (onReadyRegistrations allOnConfig none).2 = true ∧
    (onReadyRegistrations allOnConfig none).1 = [] := by
  decide

/-- C3 (amended): when the capability set is absent the handler surfaces
the user-facing error and registers no fallback providers (it returns
early); when the capability set is present but empty no error is surfaced
and every feature with a fallback block gets exactly one fallback handle,
regardless of the configuration toggles. -/
theorem C3_amended_theorem (config : LanguageServerConfig) (f : Feature) :
    ((onReadyRegistrations config none).2 = true ∧
      (onReadyRegistrations config none).1 = []) ∧
    ((onReadyRegistrations config (some emptyCaps)).2 = false ∧
      (onReadyRegistrations config (some emptyCaps)).1.count f
        = if hasFallback f = true then 1 else 0) := by
  refine ⟨⟨rfl, rfl⟩, rfl, ?_⟩
  cases f <;>
    simp [onReadyRegistrations, List.count_append, count_regSeg, emptyCaps, hasFallback]

/-! ## Restart command (`go.languageserver.restart`)

The command handler (`src/goLanguageServer.ts` lines 245-250) is

```
await c.stop();
languageServerDisposable.dispose();
languageServerDisposable = c.start();
ctx.subscriptions.push(languageServerDisposable);
```

with `languageServerDisposable` a shared variable initialised by
`languageServerDisposable = c.start(); ctx.subscriptions.push(...)`.
There is no guard serialising concurrent invocations.  We model each
invocation as two phases: phase 1 performs `c.stop()` and suspends at the
`await`; phase 2 — which runs atomically, since the remaining statements
contain no suspension point — disposes the current handle, starts a fresh
one and pushes it.  Handles are numbered by creation order. -/

/-- Shared state of the restart machinery: counters of `c.start()` /
`c.stop()` calls, the handle currently held by `languageServerDisposable`,
the handles disposed so far, the handles pushed to `ctx.subscriptions`,
and the next fresh handle id. -/
structure RestartState where
  startCalls : Nat
  stopCalls : Nat
  current : Nat
  disposedIds : List Nat
  subscriptions : List Nat
  nextId : Nat
  deriving DecidableEq, Repr

/-- State after `registerLanguageFeatures` ran
`languageServerDisposable = c.start(); ctx.subscriptions.push(...)`
(lines 242-243): one start, handle 0 live and subscribed. -/
def initialRestartState : RestartState := ⟨1, 0, 0, [], [0], 1⟩

/-- Phase 1 of a restart invocation: `await c.stop()`. -/
def restartPhase1 (s : RestartState) : RestartState :=
  { s with stopCalls := s.stopCalls + 1 }

/-- Phase 2 of a restart invocation (atomic continuation after the await):
`languageServerDisposable.dispose(); languageServerDisposable = c.start();
ctx.subscriptions.push(languageServerDisposable)`. -/
def restartPhase2 (s : RestartState) : RestartState :=
  { s with
    disposedIds := s.disposedIds ++ [s.current]
    startCalls := s.startCalls + 1
    current := s.nextId
    subscriptions := s.subscriptions ++ [s.nextId]
    nextId := s.nextId + 1 }

/-- Run one step of a restart invocation whose program counter is `pc`
(0 = before the stop, 1 = suspended at the await, 2 = finished). -/
def stepInvocation (s : RestartState) (pc : Nat) : RestartState × Nat :=
  if pc = 0 then (restartPhase1 s, 1)
  else if pc = 1 then (restartPhase2 s, 2)
  else (s, pc)

/-- Execute two restart invocations under a cooperative schedule: `true`
steps the first invocation, `false` the second. -/
def runSchedule (sched : List Bool) : RestartState :=
  (sched.foldl
    (fun acc b =>
      if b then
        let r := stepInvocation acc.1 acc.2.1
        (r.1, r.2, acc.2.2)
      else
        let r := stepInvocation acc.1 acc.2.2
        (r.1, acc.2.1, r.2))
    ((initialRestartState, 0, 0) : RestartState × Nat × Nat)).1

/-- Handles pushed to `ctx.subscriptions` and not yet disposed. -/
def liveHandleCount (s : RestartState) : Nat :=
  (s.subscriptions.filter (fun i => !s.disposedIds.contains i)).length

/-- The overlapped schedule: the second restart is issued while the first
is suspended at `await c.stop()`, then each invocation resumes. -/
def overlappedSchedule : List Bool := [true, false, true, false]

/-- C4: the claim fails on the code.  In the overlapped schedule the
handler has no serialization guard, so both invocations run `c.start()`:
three starts occur in total (the initial one plus one per restart),
whereas the claim — the second restart awaits the first instead of
starting a second server process — would leave only two. -/
theorem C4_counterexample :
    (runSchedule overlappedSchedule).startCalls = 3 ∧
    ¬ ((runSchedule overlappedSchedule).startCalls = 2) := by
  decide

/-- C4 (amended): concurrent restart invocations are not serialized: in
every interleaving of the two invocations each independently stops,
disposes and starts the client, so `c.start()` runs once per invocation
(three starts including the initial one) and `c.stop()` twice; because
the post-await continuation of each invocation runs atomically, every
interleaving still ends with exactly one undisposed handle. -/
theorem C4_amended_theorem (sched : Fin 4 → Bool)
    (hcount : (List.ofFn sched).count true = 2) :
    (runSchedule (List.ofFn sched)).startCalls = 3 ∧
    (runSchedule (List.ofFn sched)).stopCalls = 2 ∧
    liveHandleCount (runSchedule (List.ofFn sched)) = 1 := by
  revert hcount
  revert sched
  decide

/-- C4 (witness): the amended theorem instantiated at the overlapped
schedule. -/
theorem C4_amended_witness :
    (List.ofFn (fun i : Fin 4 => decide (i.val % 2 = 0))).count true = 2 ∧
    ((runSchedule (List.ofFn (fun i : Fin 4 => decide (i.val % 2 = 0)))).startCalls = 3 ∧
      (runSchedule (List.ofFn (fun i : Fin 4 => decide (i.val % 2 = 0)))).stopCalls = 2 ∧
      liveHandleCount (runSchedule (List.ofFn (fun i : Fin 4 => decide (i.val % 2 = 0)))) = 1) :=
  ⟨by decide, C4_amended_theorem (fun i : Fin 4 => decide (i.val % 2 = 0)) (by decide)⟩

/-! ## Version gate (`shouldUpdateLanguageServer`, `goplsVersion`)

JavaScript strings are modelled as their character sequences
(`List Char`), because the string operations the source uses
(`trim`, `split`, indexing) are implemented below by structural
recursion so that concrete runs evaluate. -/

/-- A JavaScript string, modelled as its character sequence. -/
abbrev JSStr := List Char

/-- JavaScript `s.split(sep)` for a one-character separator: splitting
the empty string yields `[""]`, as in JavaScript. -/
def splitOnChar (sep : Char) : JSStr → List JSStr
  | [] => [[]]
  | c :: cs =>
      let rest := splitOnChar sep cs
      if c = sep then [] :: rest
      else
        match rest with
        | [] => [[c]]
        | r :: rs => (c :: r) :: rs

/-- Whitespace characters relevant to the trimming done by the source's
inputs (space, newline, tab, carriage return). -/
def isWS (c : Char) : Bool := c = ' ' || c = '\n' || c = '\t' || c = '\r'

/-- JavaScript `s.trim()`: strip whitespace from both ends. -/
def jsTrim (s : JSStr) : JSStr :=
  ((s.dropWhile isWS).reverse.dropWhile isWS).reverse

/-- A semantic version as the `semver` library compares it for the
plain dotted numerals that the module registry serves. -/
structure SemV where
  major : Nat
  minor : Nat
  patch : Nat
  deriving DecidableEq, Repr

/-- Parse a non-empty digit string as a natural number. -/
def parseNatChars (s : JSStr) : Option Nat :=
  if s = [] then none
  else if s.all (fun c => decide ('0' ≤ c ∧ c ≤ '9')) then
    some (s.foldl (fun n c => 10 * n + (c.toNat - '0'.toNat)) 0)
  else none

/-- The `semver.coerce` call of `shouldUpdateLanguageServer`, modelled for
the version shapes the registry serves: an optional leading `v` followed
by one to three dot-separated numerals, missing components defaulting to
zero; anything else coerces to `null`. -/
def semverCoerce (s : JSStr) : Option SemV :=
  let s := if s.head? = some 'v' then s.tail else s
  match (splitOnChar '.' s).map parseNatChars with
  | [some a] => some ⟨a, 0, 0⟩
  | [some a, some b] => some ⟨a, b, 0⟩
  | [some a, some b, some c] => some ⟨a, b, c⟩
  | _ => none

/-- The `semver.lt` comparison: lexicographic on (major, minor, patch). -/
def vlt (a b : SemV) : Bool :=
  decide (a.major < b.major ∨
    (a.major = b.major ∧ (a.minor < b.minor ∨
      (a.minor = b.minor ∧ a.patch < b.patch))))

/-- Insert into a descending list, keeping it descending: the
comparator-driven placement of `versions.sort(semver.rcompare)`. -/
def insertDesc (x : SemV) : List SemV → List SemV
  | [] => [x]
  | y :: ys => if vlt x y then y :: insertDesc x ys else x :: y :: ys

/-- The `versions.sort(semver.rcompare)` call: sort descending. -/
def sortDesc (l : List SemV) : List SemV := l.foldr insertDesc []

/-- The coercion loop of `shouldUpdateLanguageServer` followed by the
sort: `semver.rcompare` throws on a `null` entry, so a list containing an
uncoercible version is an exceptional (`none`) outcome. -/
def allCoerced : List (Option SemV) → Option (List SemV)
  | [] => some []
  | none :: _ => none
  | some v :: rest => (allCoerced rest).map (v :: ·)

/-- The output-parsing part of `goplsVersion` (`src/goLanguageServer.ts`
lines 431-487): given the stdout of `gopls version` (`none` when
`execFile` failed because the subcommand is unsupported), return the
installed version string, or `null` when the output does not have the
expected two-line shape with an `@`-separated module version on the
second line. -/
def goplsVersion (execOutput : Option JSStr) : Option JSStr :=
  match execOutput with
  | none => none
  | some output =>
      let lines := splitOnChar '\n' (jsTrim output)
      match lines.length with
      | 0 => none
      | 1 => none
      | 2 =>
          let moduleVersion := (splitOnChar ' ' (jsTrim (lines.getD 1 []))).getD 0 []
          let split := splitOnChar '@' (jsTrim moduleVersion)
          if split.length < 2 then none
          else some (split.getD 1 [])
      | _ => none

/-- `shouldUpdateLanguageServer` (`src/goLanguageServer.ts` lines
397-429), as a function of the tool name, the result of `goplsVersion`,
and the newline-separated version list fetched from the module registry.
`none` models a thrown exception / rejected promise (a `semver` call on
an unparsable version). -/
def shouldUpdateLanguageServer (toolName : JSStr) (usersVersion : Option JSStr)
    (data : JSStr) : Option Bool :=
  if toolName ≠ "gopls".data then some false
  else
    match usersVersion with
    | none => some true
    | some v =>
        if v = "(devel)".data then some false
        else
          let entries := (splitOnChar '\n' (jsTrim data)).map semverCoerce
          if entries.length = 0 then some false
          else
            match allCoerced entries with
            | none => none
            | some versions =>
                match semverCoerce v with
                | none => none
                | some uv => some (vlt uv ((sortDesc versions).headD ⟨0, 0, 0⟩))

theorem vlt_irrefl (a : SemV) : vlt a a = false := by
  simp only [vlt, decide_eq_false_iff_not]
  omega

theorem vlt_asymm (a b : SemV) (h : vlt a b = true) : vlt b a = false := by
  simp only [vlt, decide_eq_true_eq] at h
  simp only [vlt, decide_eq_false_iff_not]
  omega

theorem vge_trans (a b c : SemV) (h1 : vlt a b = false) (h2 : vlt b c = false) :
    vlt a c = false := by
  simp only [vlt, decide_eq_false_iff_not] at h1 h2
  simp only [vlt, decide_eq_false_iff_not]
  omega

theorem vlt_of_vlt_of_ge (a b c : SemV) (h1 : vlt a b = true) (h2 : vlt c b = false) :
    vlt a c = true := by
  simp only [vlt, decide_eq_true_eq] at h1
  simp only [vlt, decide_eq_false_iff_not] at h2
  simp only [vlt, decide_eq_true_eq]
  omega

theorem mem_insertDesc (x y : SemV) (l : List SemV) :
    y ∈ insertDesc x l ↔ y = x ∨ y ∈ l := by
  induction l with
  | nil => simp [insertDesc]
  | cons a t ih =>
      by_cases h : vlt x a = true
      · simp only [insertDesc, h, if_true, List.mem_cons, ih]
        tauto
      · simp only [insertDesc, h, if_false, Bool.false_eq_true, List.mem_cons]

theorem insertDesc_ne_nil (x : SemV) (l : List SemV) : insertDesc x l ≠ [] := by
  cases l with
  | nil => simp [insertDesc]
  | cons a t =>
      by_cases h : vlt x a = true <;> simp [insertDesc, h]

theorem mem_sortDesc (y : SemV) (l : List SemV) : y ∈ sortDesc l ↔ y ∈ l := by
  induction l with
  | nil => simp [sortDesc]
  | cons a t ih =>
      show y ∈ insertDesc a (sortDesc t) ↔ _
      rw [mem_insertDesc]
      simp [ih]

theorem headDominant_insertDesc (x : SemV) (l : List SemV)
    (hl : ∀ y ∈ l, vlt (l.headD ⟨0, 0, 0⟩) y = false) :
    ∀ y ∈ insertDesc x l, vlt ((insertDesc x l).headD ⟨0, 0, 0⟩) y = false := by
  cases l with
  | nil =>
      intro y hy
      simp only [insertDesc, List.mem_singleton] at hy
      subst hy
      simp [insertDesc, vlt_irrefl]
  | cons a t =>
      by_cases h : vlt x a = true
      · intro y hy
        simp only [insertDesc, h, if_true, List.headD_cons] at hy ⊢
        rcases List.mem_cons.mp hy with rfl | hy'
        · exact vlt_irrefl y
        · rcases (mem_insertDesc x y t).mp hy' with rfl | hyt
          · exact vlt_asymm y a h
          · exact hl y (List.mem_cons_of_mem a hyt)
      · have h' : vlt x a = false := by
          cases hxa : vlt x a
          · rfl
          · exact absurd hxa h
        intro y hy
        simp only [insertDesc, h', Bool.false_eq_true, if_false, List.headD_cons] at hy ⊢
        rcases List.mem_cons.mp hy with rfl | hy'
        · exact vlt_irrefl y
        · rcases List.mem_cons.mp hy' with rfl | hyt
          · exact h'
          · exact vge_trans x a y h' (hl y (List.mem_cons_of_mem a hyt))

theorem sortDesc_ne_nil (l : List SemV) (h : l ≠ []) : sortDesc l ≠ [] := by
  cases l with
  | nil => exact absurd rfl h
  | cons a t => exact insertDesc_ne_nil a (sortDesc t)

theorem sortDesc_headDominant (l : List SemV) :
    ∀ y ∈ sortDesc l, vlt ((sortDesc l).headD ⟨0, 0, 0⟩) y = false := by
  induction l with
  | nil => intro y hy; simp [sortDesc] at hy
  | cons a t ih => exact headDominant_insertDesc a (sortDesc t) ih

theorem sortDesc_headD_mem (l : List SemV) (h : l ≠ []) :
    (sortDesc l).headD ⟨0, 0, 0⟩ ∈ l := by
  rw [← mem_sortDesc]
  cases hs : sortDesc l with
  | nil => exact absurd hs (sortDesc_ne_nil l h)
  | cons a t => simp [List.headD_cons]

theorem allCoerced_map_some (vs : List SemV) : allCoerced (vs.map some) = some vs := by
  induction vs with
  | nil => rfl
  | cons v rest ih => simp [allCoerced, ih]

/-- C5: for the designated auto-updatable tool (`gopls`) with a parseable
installed version, `shouldUpdateLanguageServer` coerces every registry
entry, sorts descending and returns `installed < maximum`: whenever the
registry list coerces entirely and is non-empty, there is a maximum
element `m` of the list and the result is exactly `installed < m`;
in particular installed `v0.1.2` against `v0.1.3\nv0.1.1\nv0.0.9` yields
`true`, and installed `(devel)` yields `false` for every registry
payload. -/
theorem C5_theorem :
    (∀ (v : JSStr) (uv : SemV) (data : JSStr) (vs : List SemV),
      v ≠ "(devel)".data →
      semverCoerce v = some uv →
      (splitOnChar '\n' (jsTrim data)).map semverCoerce = vs.map some →
      vs ≠ [] →
      ∃ m ∈ vs, (∀ x ∈ vs, vlt m x = false) ∧
        shouldUpdateLanguageServer "gopls".data (some v) data = some (vlt uv m)) ∧
    shouldUpdateLanguageServer "gopls".data (some "v0.1.2".data)
      "v0.1.3\nv0.1.1\nv0.0.9".data = some true ∧
    (∀ data : JSStr,
      shouldUpdateLanguageServer "gopls".data (some "(devel)".data) data = some false) := by
  refine ⟨?_, by decide, ?_⟩
  · intro v uv data vs hdev hcoerce hsplit hne
    refine ⟨(sortDesc vs).headD ⟨0, 0, 0⟩, sortDesc_headD_mem vs hne,
      fun x hx => sortDesc_headDominant vs x ((mem_sortDesc x vs).mpr hx), ?_⟩
    have hg : ¬ ("gopls".data ≠ "gopls".data) := by simp
    have hlen : ¬ ((vs.map (some : SemV → Option SemV)).length = 0) := by
      simp [List.length_eq_zero, hne]
    simp only [shouldUpdateLanguageServer, if_neg hg, if_neg hdev, hsplit,
      if_neg hlen, allCoerced_map_some, hcoerce]
  · intro data
    simp [shouldUpdateLanguageServer]

/-- C5 (witness): the universal part of the theorem instantiated at the
claim's concrete example. -/
theorem C5_witness :
    ∃ m ∈ ([⟨0, 1, 3⟩, ⟨0, 1, 1⟩, ⟨0, 0, 9⟩] : List SemV),
      (∀ x ∈ ([⟨0, 1, 3⟩, ⟨0, 1, 1⟩, ⟨0, 0, 9⟩] : List SemV), vlt m x = false) ∧
      shouldUpdateLanguageServer "gopls".data (some "v0.1.2".data)
        "v0.1.3\nv0.1.1\nv0.0.9".data = some (vlt ⟨0, 1, 2⟩ m) :=
  C5_theorem.1 "v0.1.2".data ⟨0, 1, 2⟩ "v0.1.3\nv0.1.1\nv0.0.9".data
    [⟨0, 1, 3⟩, ⟨0, 1, 1⟩, ⟨0, 0, 9⟩] (by decide) (by decide) (by decide) (by decide)

/-- C6: the claim fails on the code.  A one-line `gopls version` output is
indeed unparsable (`goplsVersion` returns `null`), but
`shouldUpdateLanguageServer` then returns `true` — it forces an update
prompt (the source comments the one-line case with "Built in $GOPATH
mode. Should update.") — not the `null`/`false` the claim states. -/
theorem C6_counterexample :
    goplsVersion (some "golang.org/x/tools/gopls master".data) = none ∧
    shouldUpdateLanguageServer "gopls".data
        (goplsVersion (some "golang.org/x/tools/gopls master".data)) "v0.1.3".data
      = some true ∧
    ¬ (shouldUpdateLanguageServer "gopls".data
        (goplsVersion (some "golang.org/x/tools/gopls master".data)) "v0.1.3".data
      = some false) := by
  decide

/-- C6 (amended): when the version sub-command's output consists of
exactly one line, `goplsVersion` returns `null` (the version is
unparsable) and `shouldUpdateLanguageServer` therefore returns `true`,
recommending an update, for every registry payload. -/
theorem C6_amended_theorem (out data : JSStr)
    (h : (splitOnChar '\n' (jsTrim out)).length = 1) :
    goplsVersion (some out) = none ∧
    shouldUpdateLanguageServer "gopls".data (goplsVersion (some out)) data = some true := by
  have h1 : goplsVersion (some out) = none := by
    simp only [goplsVersion, h]
  refine ⟨h1, ?_⟩
  rw [h1]
  simp [shouldUpdateLanguageServer]

/-- C6 (witness): the amended theorem instantiated at a concrete one-line
output. -/
theorem C6_amended_witness :
    (splitOnChar '\n' (jsTrim "golang.org/x/tools/gopls master".data)).length = 1 ∧
    (goplsVersion (some "golang.org/x/tools/gopls master".data) = none ∧
      shouldUpdateLanguageServer "gopls".data
        (goplsVersion (some "golang.org/x/tools/gopls master".data)) "v0.1.1".data
      = some true) :=
  ⟨by decide, C6_amended_theorem "golang.org/x/tools/gopls master".data "v0.1.1".data (by decide)⟩

/-! ## Lint cancellation (`src/goLint.ts`)

`goLint` keeps a module-level `tokenSource` (a cancellation token source)
and a `running` flag; on each call it cancels the source if a lint is
running, sets `running`, and launches `runTool` with `tokenSource.token`.
The source is never disposed or recreated. -/

/-- Module-level mutable state of `src/goLint.ts`: whether the shared
`tokenSource` has been cancelled, and the `running` flag. -/
structure LintState where
  tokenCancelled : Bool
  running : Bool
  deriving DecidableEq, Repr

/-- Initial module state: fresh token source, no lint running. -/
def initialLintState : LintState := ⟨false, false⟩

/-- Record of one `runTool` launch: whether the cancellation token passed
to it was already cancelled at the moment the lint process was
launched. -/
structure LintLaunch where
  tokenCancelledAtLaunch : Bool
  deriving DecidableEq, Repr

/-- The body of `goLint` up to and including the `runTool` launch
(`src/goLint.ts` lines 74-88): `if (running) tokenSource.cancel();
running = true;` then launch `runTool` with `tokenSource.token` — a token
of the same shared, never-recreated source. -/
def goLintLaunch (s : LintState) : LintState × LintLaunch :=
  let s1 := if s.running then { s with tokenCancelled := true } else s
  let s2 := { s1 with running := true }
  (s2, ⟨s2.tokenCancelled⟩)

/-- The `.then` handler of the lint promise, clearing `running`. -/
def goLintFinish (s : LintState) : LintState := { s with running := false }

/-- Modelled from the spec: `runTool` (in `util.ts`, not under `src/`)
registers the token's cancellation to kill the lint process and discard
its result ("a fresh lint request signals cancellation of any
still-running prior lint", "the first's result being discarded"); per the
editor API a token already cancelled at registration time fires its
listener immediately, so a launch is discarded when its token was
cancelled at launch time or is cancelled during the run. -/
def lintResultDiscarded (launch : LintLaunch) (cancelledDuringRun : Bool) : Bool :=
  launch.tokenCancelledAtLaunch || cancelledDuringRun

/-- C7: the code contradicts the claim.  When a second lint request
arrives while the first is running, it cancels the shared token source —
discarding the first lint's result, as the claim says — but it then
launches its own `runTool` with a token of that same source, which is
already cancelled at launch; so the second request's result is discarded
too, rather than being applied as the sole surviving diagnostics. -/
theorem C7_bug_theorem :
    (goLintLaunch initialLintState).2.tokenCancelledAtLaunch = false ∧
    lintResultDiscarded (goLintLaunch initialLintState).2 true = true ∧
    (goLintLaunch (goLintLaunch initialLintState).1).1.tokenCancelled = true ∧
    (goLintLaunch (goLintLaunch initialLintState).1).2.tokenCancelledAtLaunch = true ∧
    lintResultDiscarded (goLintLaunch (goLintLaunch initialLintState).1).2 false = true := by
  decide

/-! ## On-save check batch (`src/goCheck.ts`) -/

/-- An `ICheckResult` as consumed by `check` (declared in `util.ts`). -/
structure ICheckResult where
  file : JSStr
  line : Nat
  msg : JSStr
  severity : JSStr
  deriving DecidableEq, Repr

/-- The promise returned by one tool's check; `Except.error` models a
rejected promise. -/
abbrev ToolPromise := Except JSStr (List ICheckResult)

/-- `Promise.all`: resolves with all results when every promise resolves,
rejects when any promise rejects. -/
def promiseAll : List ToolPromise → Except JSStr (List (List ICheckResult))
  | [] => .ok []
  | .error e :: _ => .error e
  | .ok r :: rest => (promiseAll rest).map (r :: ·)

/-- The on-save batch of `check` (`src/goCheck.ts` lines 114-153
restricted to `runningToolsPromises`): build, lint and vet are pushed in
source order when their `...OnSave` settings are on, and the result is
`Promise.all(runningToolsPromises)` flattened with `[].concat(...)`
(the test/coverage promises are not part of `runningToolsPromises`). -/
def check (buildOnSave lintOnSave vetOnSave : Bool)
    (buildP lintP vetP : ToolPromise) : Except JSStr (List ICheckResult) :=
  let runningToolsPromises :=
    (if buildOnSave then [buildP] else []) ++
    (if lintOnSave then [lintP] else []) ++
    (if vetOnSave then [vetP] else [])
  (promiseAll runningToolsPromises).map List.flatten

/-- Modelled from the spec: `goBuild`, `goVet` and `runTool` (none under
`src/`) resolve with their parsed result set, and resolve with no result
rather than rejecting when their tool invocation errors (spec section 7:
a tool error is surfaced as a message and the operation "yields no
result", and "errors from a single tool invocation never abort a batch of
independent checks"). -/
def specToolOutcome (issues : List ICheckResult) (toolErrored : Bool) : ToolPromise :=
  .ok (if toolErrored then [] else issues)

/-- C8: with each sub-check resolving independently — contributing its
result set, or an empty set when its tool errored — the batch always
resolves, with the concatenation of the enabled checks' successful result
sets, whatever combination of tools errored: one tool's error never
aborts its siblings' reporting. -/
theorem C8_theorem (b l v eb el ev : Bool)
    (rb rl rv : List ICheckResult) :
    check b l v (specToolOutcome rb eb) (specToolOutcome rl el) (specToolOutcome rv ev)
      = .ok ((if b then if eb then [] else rb else []) ++
             (if l then if el then [] else rl else []) ++
             (if v then if ev then [] else rv else [])) := by
  cases b <;> cases l <;> cases v <;> cases eb <;> cases el <;> cases ev <;>
    simp [check, promiseAll, specToolOutcome, Except.map, List.flatten]

/-! ## Update prompts (`goInstallTools.ts`) -/

/-- Modelled from the spec: `containsTool`/`getTool` from `goTools.ts`
(not under `src/`) check membership of a tool, identified by name, in an
unordered declined set. -/
def containsTool (declined : List JSStr) (toolName : JSStr) : Bool :=
  decide (toolName ∈ declined)

/-- The module-level declined sets of `goInstallTools.ts`. -/
structure InstallState where
  declinedUpdates : List JSStr
  declinedInstalls : List JSStr
  deriving DecidableEq, Repr

/-- The user's reaction to the update prompt: the
`showInformationMessage` promise resolves with `'Update'` or with
`undefined` (dismissed). -/
inductive UpdateSelection
  | update
  | dismissed
  deriving DecidableEq, Repr

/-- Result of one `promptForUpdatingTool` call: the new module state,
whether the prompt was shown, and whether `installTools` ran. -/
structure PromptOutcome where
  state : InstallState
  prompted : Bool
  installRan : Bool
  deriving DecidableEq, Repr

/-- `promptForUpdatingTool` (`goInstallTools.ts` lines 258-276): return
early without prompting when the tool is in `declinedUpdates`; otherwise
show the prompt and switch on the selection — `case 'Update'` runs
`installTools` and, having no `break`, falls through to `default`, which
pushes the tool onto `declinedUpdates`; so the tool is pushed whatever
the selection. -/
def promptForUpdatingTool (s : InstallState) (toolName : JSStr)
    (selection : UpdateSelection) : PromptOutcome :=
  if containsTool s.declinedUpdates toolName then ⟨s, false, false⟩
  else
    { state := { s with declinedUpdates := s.declinedUpdates ++ [toolName] }
      prompted := true
      installRan := match selection with | .update => true | .dismissed => false }

/-- C9: after any single `promptForUpdatingTool` call — whatever the user
selects, 'Update' included, because the `switch` falls through to the
push — the tool is in `declinedUpdates`, so every subsequent call for the
same tool in the session returns without showing the prompt: the update
prompt is shown at most once per tool per process lifetime. -/
theorem C9_theorem (s : InstallState) (tool : JSStr)
    (sel sel' : UpdateSelection) :
    containsTool (promptForUpdatingTool s tool sel).state.declinedUpdates tool = true ∧
    (promptForUpdatingTool (promptForUpdatingTool s tool sel).state tool sel').prompted
      = false := by
  by_cases h : tool ∈ s.declinedUpdates
  · simp [promptForUpdatingTool, containsTool, h]
  · simp [promptForUpdatingTool, containsTool, h, List.mem_append]

/-! ## Formatter flags (`goFormat.ts`) -/

/-- The `formatFlags.splice(formatFlags.indexOf('-w'), 1)` call of
`Formatter.formatDocument`: remove the first occurrence of the flag. -/
def spliceFirst (flag : JSStr) : List JSStr → List JSStr
  | [] => []
  | f :: fs => if f = flag then fs else f :: spliceFirst flag fs

/-- The flag preparation of `Formatter.formatDocument` (`goFormat.ts`
lines 20-33): copy the configured flags, drop the first `-w` if present,
and for `goimports`/`goreturns` append `-srcdir <filename>`. -/
def formatDocumentFlags (formatTool : JSStr) (configFlags : List JSStr)
    (filename : JSStr) : List JSStr :=
  let formatFlags := configFlags
  let formatFlags :=
    if formatFlags.contains "-w".data then spliceFirst "-w".data formatFlags
    else formatFlags
  if formatTool = "goimports".data ∨ formatTool = "goreturns".data then
    formatFlags ++ ["-srcdir".data, filename]
  else formatFlags

/-- A text edit, as the formatter's success path produces it. -/
structure TextEdit where
  startLine : Nat
  startChar : Nat
  endLine : Nat
  endChar : Nat
  newText : JSStr
  deriving DecidableEq, Repr

/-- The success path of `formatDocument`: a single edit replacing the
whole document — from position (0,0) to the end of the last line — with
the formatter's stdout. -/
def formatDocumentEdits (docLineCount lastLineEndChar : Nat)
    (formatterStdout : JSStr) : List TextEdit :=
  [⟨0, 0, docLineCount - 1, lastLineEndChar, formatterStdout⟩]

/-- C10: the code contradicts the claim and its own comment ("We ignore
the -w flag that updates file on disk because that would break undo
feature"): the splice removes only the first occurrence of `-w`, so when
the configured format flags contain `-w` twice the external formatter is
still invoked with `-w` and rewrites the file on disk.  With a single
`-w` the flag is removed, and the success path always returns exactly one
whole-document edit. -/
theorem C10_bug_theorem :
    (formatDocumentFlags "gofmt".data ["-w".data, "-w".data] "a.go".data).contains "-w".data
      = true ∧
    (formatDocumentFlags "gofmt".data ["-w".data] "a.go".data).contains "-w".data = false ∧
    (formatDocumentEdits 10 5 "pkg".data).length = 1 := by
  decide

end VSCodeGo
